import Mathlib

/-!
Verification of the AAF segment-index repository
(`aaf-lab.py` and `aaf-lab-var2.py`).

The development shallowly embeds both Python files:

* the var2 `RTree` (store + rebuilt bounding-box tree, `_build_tree_recursive`,
  `contains`, `search`, `print_tree`),
* the first file's `RTree` (store + BST-style node insertion, `print_tree`
  that dereferences a `None` root),
* the shared `Lexer.tokenize` and the `Parser` command dispatchers of both
  files, with Python exceptions (`ValueError`, `IndexError`, `AttributeError`)
  made explicit through `Except`.

Python integers are unbounded, so segment bounds are `Int`; Python lists are
Lean `List`s; the `trees` dict is an insertion-ordered association list.
-/

/-- A segment `[l, h]`: the Python two-element list `[l, h]` of (unbounded) ints. -/
structure Segment where
  l : Int
  h : Int
deriving DecidableEq

/-- The comparison performed by `segments.sort(key=lambda x: x[0])`:
order segments by their lower bound. -/
def lowerLE (a b : Segment) : Prop := a.l ≤ b.l

instance : DecidableRel lowerLE := fun a b => inferInstanceAs (Decidable (a.l ≤ b.l))

instance : IsTotal Segment lowerLE := ⟨fun a b => Int.le_total a.l b.l⟩

instance : IsTrans Segment lowerLE := ⟨fun _ _ _ hab hbc => le_trans hab hbc⟩

/-- Python's `list.sort` is a stable sort; `List.insertionSort` is the stable
sort by the same key, so it computes the same list. -/
def pySort (segs : List Segment) : List Segment := List.insertionSort lowerLE segs

/-- A node of the var2 `RTreeNode`: a leaf wraps one segment (its `children`
list is the singleton `[segment]`), an internal node owns two children.  The
`bbox` argument records the field assigned by `update_bbox`. -/
inductive RTreeNode where
  | leaf (segment : Segment) (bbox : Segment)
  | node (bbox : Segment) (left right : RTreeNode)
deriving DecidableEq

/-- The `bbox` attribute of a node. -/
def RTreeNode.bbox : RTreeNode → Segment
  | .leaf _ b => b
  | .node b _ _ => b

/-- `update_bbox` on a leaf (var2 line 18): `min`/`max` of the raw segments in
the nonempty `children` list, given as head `c0` and tail `cs`. -/
def leafBBox (c0 : Segment) (cs : List Segment) : Segment :=
  ⟨cs.foldl (fun a c => min a c.l) c0.l, cs.foldl (fun a c => max a c.h) c0.h⟩

/-- `update_bbox` on an internal node (var2 line 20): `min`/`max` over the
children's bboxes. -/
def nodesBBox (c0 : RTreeNode) (cs : List RTreeNode) : Segment :=
  ⟨cs.foldl (fun a c => min a c.bbox.l) c0.bbox.l,
   cs.foldl (fun a c => max a c.bbox.h) c0.bbox.h⟩

/-- `RTree._build_tree_recursive` (var2 lines 34-53).  One segment gives a
leaf; otherwise the list is sorted by lower bound and split at `len // 2`.
The Python recursion always terminates on a nonempty list because both halves
of the midpoint split are strictly shorter, so a fuel equal to the list length
suffices (`buildTreeFuel_congr` below); on the empty list the Python code
recurses forever, modelled as `none`. -/
def buildTreeFuel : Nat → List Segment → Option RTreeNode
  | _, [] => none
  | _, [s] => some (.leaf s (leafBBox s []))
  | 0, _ :: _ :: _ => none
  | fuel + 1, s0 :: s1 :: rest =>
    let segs := s0 :: s1 :: rest
    let sorted := pySort segs
    let mid := segs.length / 2
    match buildTreeFuel fuel (sorted.take mid), buildTreeFuel fuel (sorted.drop mid) with
    | some lt, some rt => some (.node (nodesBBox lt [rt]) lt rt)
    | _, _ => none

/-- `Build`: `_build_tree_recursive` run on a list, with just enough fuel. -/
def buildTree (segs : List Segment) : Option RTreeNode :=
  buildTreeFuel segs.length segs

/-- The var2 `RTree`: the segment store `self.segments` plus the root rebuilt
on every insertion. -/
structure RTreeV2 where
  segments : List Segment
  root : Option RTreeNode
deriving DecidableEq

/-- A var2 `RTree()` as created by `CREATE`. -/
def emptyV2 : RTreeV2 := ⟨[], none⟩

/-- `RTree.insert` of var2 (lines 29-32): append the segment, then rebuild.
The top-level `_build_tree_recursive(self.segments)` call receives the store
itself, and `segments.sort(...)` (line 43) sorts it **in place** — only the
single-element early return (line 36) skips the sort.  The recursive calls
receive slice copies and do not affect the store. -/
def RTreeV2.insert (t : RTreeV2) (s : Segment) : RTreeV2 :=
  let segs := t.segments ++ [s]
  { segments := if segs.length = 1 then segs else pySort segs
    root := buildTree segs }

/-- Folding a whole insertion sequence into a fresh var2 index. -/
def insertAllV2 (xs : List Segment) : RTreeV2 := xs.foldl RTreeV2.insert emptyV2

/-- `RTree.contains` (identical in both files): linear scan over the store,
returning `True` on the first stored `[l, h]` with `l <= L and H <= h`. -/
def containsSeg (segments : List Segment) (q : Segment) : Bool :=
  segments.any fun s => decide (s.l ≤ q.l) && decide (q.h ≤ s.h)

/-- The `query_type`/`params` pairs `RTree.search` accepts. -/
inductive QueryType where
  | contains (L H : Int)
  | intersects (L H : Int)
  | leftOf (x : Int)
deriving DecidableEq

/-- `RTree.search` (identical in both files): `None` returns the store
verbatim, the three keywords filter it by list comprehension. -/
def searchSegs (segments : List Segment) : Option QueryType → List Segment
  | none => segments
  | some (.contains L H) =>
    segments.filter fun s => decide (s.l ≤ L) && decide (H ≤ s.h)
  | some (.intersects L H) =>
    segments.filter fun s => !(decide (s.h < L) || decide (H < s.l))
  | some (.leftOf x) =>
    segments.filter fun s => decide (s.h ≤ x)

/-- Python `str` of a two-element int list, e.g. `"[3, 4]"`. -/
def pySegStr (s : Segment) : String :=
  let a := s.l
  let b := s.h
  s!"[{a}, {b}]"

/-- Python `str` of a list of segments, e.g. `"[[3, 4], [2, 7]]"` or `"[]"`. -/
def pyListStr (xs : List Segment) : String :=
  "[" ++ String.intercalate ", " (xs.map pySegStr) ++ "]"

/-- Python `str` of a bool. -/
def pyBoolStr (b : Bool) : String := if b then "True" else "False"

/-- The lines printed by the var2 `RTree.print_tree` below a node:
pre-order, two-space indent per level. -/
def printNodeLinesV2 : RTreeNode → Nat → String → List String
  | .leaf _ b, level, position =>
    [String.join (List.replicate level "  ") ++ position ++ ": " ++ pySegStr b]
  | .node b lc rc, level, position =>
    (String.join (List.replicate level "  ") ++ position ++ ":  " ++ pySegStr b)
      :: (printNodeLinesV2 lc (level + 1) "Left Child"
          ++ printNodeLinesV2 rc (level + 1) "Right Child")

/-- The var2 `RTree.print_tree` entry point: an empty root prints
`Tree is empty` (lines 60-62), so it is total. -/
def printLinesV2 : Option RTreeNode → List String
  | none => ["Tree is empty"]
  | some n => printNodeLinesV2 n 0 "Root"

/-- The first file's `RTreeNode`: a segment plus optional children;
Python's `None` child is `.nil`. -/
inductive LabTree where
  | nil
  | node (segment : Segment) (left right : LabTree)
deriving DecidableEq

/-- `RTree._insert_node` of aaf-lab.py (lines 27-39): descend left when
`l < node.segment[0]`, else right; fill the first `None` child.  The `.nil`
case never arises — the caller only passes existing nodes. -/
def insertNodeLab : LabTree → Segment → LabTree
  | .nil, s => .node s .nil .nil
  | .node seg lc rc, s =>
    if s.l < seg.l then
      match lc with
      | .nil => .node seg (.node s .nil .nil) rc
      | .node a b c => .node seg (insertNodeLab (.node a b c) s) rc
    else
      match rc with
      | .nil => .node seg lc (.node s .nil .nil)
      | .node a b c => .node seg lc (insertNodeLab (.node a b c) s)

/-- The first file's `RTree`: store plus BST-ish root. -/
structure RTreeLab where
  segments : List Segment
  root : LabTree
deriving DecidableEq

/-- An aaf-lab.py `RTree()` as created by `CREATE`. -/
def emptyLab : RTreeLab := ⟨[], .nil⟩

/-- `RTree.insert` of aaf-lab.py (lines 19-25): append to the store; a `None`
root becomes a fresh node, otherwise `_insert_node` places the segment. -/
def RTreeLab.insert (t : RTreeLab) (s : Segment) : RTreeLab :=
  { segments := t.segments ++ [s]
    root := match t.root with
      | .nil => .node s .nil .nil
      | .node a b c => insertNodeLab (.node a b c) s }

/-- Folding a whole insertion sequence into a fresh aaf-lab.py index. -/
def insertAllLab (xs : List Segment) : RTreeLab := xs.foldl RTreeLab.insert emptyLab

/-- The Python exception classes these programs can raise. -/
inductive PyErr where
  | valueError
  | indexError
  | attributeError
deriving DecidableEq

instance {ε α : Type} [DecidableEq ε] [DecidableEq α] : DecidableEq (Except ε α) :=
  fun a b =>
    match a, b with
    | .ok a, .ok b =>
      if h : a = b then isTrue (congrArg Except.ok h)
      else isFalse fun he => h (Except.ok.inj he)
    | .error a, .error b =>
      if h : a = b then isTrue (congrArg Except.error h)
      else isFalse fun he => h (Except.error.inj he)
    | .ok _, .error _ => isFalse fun he => Except.noConfusion he
    | .error _, .ok _ => isFalse fun he => Except.noConfusion he

/-- Python `str.upper()` on ASCII input, character by character. -/
def asciiUpper (c : Char) : Char :=
  if 'a' ≤ c ∧ c ≤ 'z' then Char.ofNat (c.toNat - 32) else c

/-- Python `str.upper()` for a whole (ASCII) string. -/
def pyUpper (s : String) : String := String.mk (s.data.map asciiUpper)

/-- Lines printed by `RTree.print_tree` of aaf-lab.py below an existing node:
right subtree first, then the node, then the left subtree, four spaces of
indentation per level.  The recursion only descends into non-`None` children
(`if node.right:` / `if node.left:`). -/
def printNodeLinesLab : LabTree → Nat → List String
  | .nil, _ => []
  | .node seg lc rc, level =>
    printNodeLinesLab rc (level + 1)
      ++ [String.join (List.replicate level "    ") ++ pySegStr seg]
      ++ printNodeLinesLab lc (level + 1)

/-- `RTree.print_tree` of aaf-lab.py (lines 41-50): with an empty tree the
default `node = self.root` stays `None` and `node.right` raises
`AttributeError`. -/
def printLinesLab : LabTree → Except PyErr (List String)
  | .nil => .error .attributeError
  | .node a b c => .ok (printNodeLinesLab (.node a b c) 0)

/-- An ASCII `\w` character: letter, digit or underscore. -/
def isWordChar (c : Char) : Bool := c.isAlphanum || c == '_'

/-- One of the single-character tokens `[`, `]`, `,`. -/
def isPunctTok (c : Char) : Bool := c == '[' || c == ']' || c == ','

/-- Worker for `Lexer.tokenize`; `acc` holds the current `\w+` run, reversed.
`re.findall(r'\w+|\[|\]|\d+|,', command)` scans left to right: a maximal run
of word characters becomes one token (the `\d+` alternative never fires,
digits being word characters and the alternation ordered), each `[`, `]`, `,`
becomes a single-character token, and every other character — spaces, `-`,
and so on — matches nothing and is skipped. -/
def tokAux : List Char → List Char → List String
  | [], acc => if acc.isEmpty then [] else [String.mk acc.reverse]
  | c :: cs, acc =>
    if isWordChar c then tokAux cs (c :: acc)
    else
      let rest :=
        if isPunctTok c then String.mk [c] :: tokAux cs [] else tokAux cs []
      if acc.isEmpty then rest else String.mk acc.reverse :: rest

/-- `Lexer.tokenize` (identical in both files). -/
def tokenize (command : String) : List String := tokAux command.data []

/-- Numeric value of a decimal digit. -/
def digitVal (c : Char) : Nat := c.toNat - '0'.toNat

/-- Value of a string of decimal digits. -/
def digitsToNat (cs : List Char) : Nat := cs.foldl (fun a c => a * 10 + digitVal c) 0

/-- Valid continuation of a Python int literal after a digit: more digits,
with single underscores allowed between digits. -/
def pyDigitsRest : List Char → Bool
  | [] => true
  | c :: cs =>
    if c.isDigit then pyDigitsRest cs
    else if c = '_' then
      match cs with
      | [] => false
      | d :: ds => d.isDigit && pyDigitsRest ds
    else false

/-- An unsigned Python int literal: a nonempty digit string, with single
underscores allowed between digits. -/
def pyUnsignedLit : List Char → Bool
  | [] => false
  | c :: cs => c.isDigit && pyDigitsRest cs

/-- `int(...)` on an unsigned literal: its digit value, or `ValueError`. -/
def pyIntCore (cs : List Char) : Except PyErr Nat :=
  if pyUnsignedLit cs then .ok (digitsToNat (cs.filter fun c => !(c == '_')))
  else .error .valueError

/-- Python `int(s)` on the strings the tokenizer can produce (tokens never
carry surrounding whitespace, so stripping is not modelled): an optional
sign followed by an unsigned literal, else `ValueError`. -/
def pyInt (s : String) : Except PyErr Int :=
  match s.data with
  | [] => .error .valueError
  | c :: cs =>
    if c = '-' then (pyIntCore cs).map fun n => -(n : Int)
    else if c = '+' then (pyIntCore cs).map fun n => (n : Int)
    else (pyIntCore (c :: cs)).map fun n => (n : Int)

/-- `tokens[i]`: `IndexError` past the end. -/
def getTok (tokens : List String) (i : Nat) : Except PyErr String :=
  match tokens.get? i with
  | some t => .ok t
  | none => .error .indexError

/-- Python dict lookup (`in` / `[...]`) on an insertion-ordered assoc list. -/
def getKey {α : Type} : List (String × α) → String → Option α
  | [], _ => none
  | (k, v) :: rest, n => if k = n then some v else getKey rest n

/-- Python dict assignment: overwrite in place, or append a new key. -/
def setKey {α : Type} : List (String × α) → String → α → List (String × α)
  | [], n, v => [(n, v)]
  | (k, w) :: rest, n, v => if k = n then (n, v) :: rest else (k, w) :: setKey rest n v

/-- The var2 `Parser.trees` dict. -/
abbrev TreesV2 := List (String × RTreeV2)

/-- The aaf-lab.py `Parser.trees` dict. -/
abbrev TreesLab := List (String × RTreeLab)

/-- `Parser.create` of var2 (the code is identical in both files, only the
tree type differs). -/
def createV2 (st : TreesV2) (tokens : List String) : TreesV2 × String :=
  match tokens with
  | _ :: n :: _ =>
    match getKey st n with
    | some _ => (st, s!"Set {n} already exists")
    | none => (setKey st n emptyV2, s!"Set {n} has been created")
  | _ => (st, "Invalid CREATE command: missing set name")

/-- The `try` body of `Parser.insert`: `int(tokens[3])`, `int(tokens[5])`, the
bound check, then the store mutation.  Only `IndexError`/`ValueError` can
escape, and both are raised before the mutation. -/
def insertBodyV2 (st : TreesV2) (n : String) (t : RTreeV2) (tokens : List String) :
    Except PyErr (TreesV2 × String) := do
  let l ← pyInt (← getTok tokens 3)
  let h ← pyInt (← getTok tokens 5)
  if l > h then
    return (st, "Invalid INSERT command: lower bound greater than upper bound")
  return (setKey st n (t.insert ⟨l, h⟩), s!"Range [{l}, {h}] has been added to {n}")

/-- `Parser.insert` of var2 (lines 138-155); the `except (ValueError,
IndexError)` arm catches everything the body can raise. -/
def insertCmdV2 (st : TreesV2) (tokens : List String) : TreesV2 × String :=
  match tokens with
  | _ :: n :: _ :: _ :: _ =>
    match getKey st n with
    | none => (st, s!"Set {n} does not exist")
    | some t =>
      match insertBodyV2 st n t tokens with
      | .ok r => r
      | .error _ => (st, "Invalid INSERT command: invalid segment format")
  | _ => (st, "Invalid INSERT command: missing parameters")

/-- `Parser.print_tree` of var2: printing is a side effect (the lines are
`printLinesV2 t.root`, always defined); the returned string is the result. -/
def printCmdV2 (st : TreesV2) (tokens : List String) : TreesV2 × String :=
  match tokens with
  | _ :: n :: _ =>
    match getKey st n with
    | none => (st, s!"Set {n} does not exist")
    | some t =>
      let _ := printLinesV2 t.root
      (st, s!"Tree for {n} printed above")
  | _ => (st, "Invalid PRINT_TREE command: missing set name")

/-- The `try` body of `Parser.contains`. -/
def containsBodyV2 (t : RTreeV2) (tokens : List String) : Except PyErr String := do
  let l ← pyInt (← getTok tokens 3)
  let h ← pyInt (← getTok tokens 5)
  return pyBoolStr (containsSeg t.segments ⟨l, h⟩)

/-- `Parser.contains` of var2 (lines 168-182). -/
def containsCmdV2 (st : TreesV2) (tokens : List String) : TreesV2 × String :=
  match tokens with
  | _ :: n :: _ :: _ :: _ =>
    match getKey st n with
    | none => (st, s!"Set {n} does not exist")
    | some t =>
      match containsBodyV2 t tokens with
      | .ok r => (st, r)
      | .error _ => (st, "Invalid CONTAINS command: invalid segment format")
  | _ => (st, "Invalid CONTAINS command: missing parameters")

/-- The `try` body of the WHERE branch of `Parser.search`: `query_type` is
already upper-cased; `CONTAINS`/`INTERSECTS` read `tokens[5]` and `tokens[7]`,
`LEFT_OF` reads `tokens[4]`, anything else is an unknown search type. -/
def searchBodyV2 (t : RTreeV2) (qt : String) (tokens : List String) :
    Except PyErr String := do
  if qt = "CONTAINS" ∨ qt = "INTERSECTS" then
    let l ← pyInt (← getTok tokens 5)
    let h ← pyInt (← getTok tokens 7)
    let results := searchSegs t.segments
      (some (if qt = "CONTAINS" then .contains l h else .intersects l h))
    let rs := pyListStr results
    return s!"Search results: {rs}"
  else if qt = "LEFT_OF" then
    let x ← pyInt (← getTok tokens 4)
    let rs := pyListStr (searchSegs t.segments (some (.leftOf x)))
    return s!"Search results: {rs}"
  else
    return "Invalid SEARCH command: unknown search type"

/-- `Parser.search` of var2 (lines 184-212): two tokens mean an unfiltered
search; otherwise `tokens[2]` must be `WHERE` and at least four tokens must be
present. -/
def searchCmdV2 (st : TreesV2) (tokens : List String) : TreesV2 × String :=
  match tokens with
  | t0 :: n :: rest =>
    match getKey st n with
    | none => (st, s!"Set {n} does not exist")
    | some t =>
      match rest with
      | [] =>
        let rs := pyListStr (searchSegs t.segments none)
        (st, s!"Search results: {rs}")
      | [_] => (st, "Invalid SEARCH command: invalid WHERE clause")
      | w :: q :: _ =>
        if pyUpper w ≠ "WHERE" then (st, "Invalid SEARCH command: invalid WHERE clause")
        else
          let qt := pyUpper q
          match searchBodyV2 t qt (t0 :: n :: rest) with
          | .ok r => (st, r)
          | .error _ => (st, s!"Invalid SEARCH command: invalid {qt} parameters")
  | _ => (st, "Invalid SEARCH command: missing set name")

/-- `Parser.parse` of var2 (lines 108-126): tokenize, upper-case the first
token, dispatch. -/
def parseV2 (st : TreesV2) (command : String) : TreesV2 × String :=
  match tokenize command with
  | [] => (st, "Invalid command")
  | t0 :: rest =>
    let tokens := t0 :: rest
    let ct := pyUpper t0
    if ct = "CREATE" then createV2 st tokens
    else if ct = "INSERT" then insertCmdV2 st tokens
    else if ct = "PRINT_TREE" then printCmdV2 st tokens
    else if ct = "CONTAINS" then containsCmdV2 st tokens
    else if ct = "SEARCH" then searchCmdV2 st tokens
    else (st, "Unknown command")

/-- `Parser.create` of aaf-lab.py. -/
def createLab (st : TreesLab) (tokens : List String) : TreesLab × String :=
  match tokens with
  | _ :: n :: _ =>
    match getKey st n with
    | some _ => (st, s!"Set {n} already exists")
    | none => (setKey st n emptyLab, s!"Set {n} has been created")
  | _ => (st, "Invalid CREATE command: missing set name")

/-- The `try` body of `Parser.insert` of aaf-lab.py. -/
def insertBodyLab (st : TreesLab) (n : String) (t : RTreeLab) (tokens : List String) :
    Except PyErr (TreesLab × String) := do
  let l ← pyInt (← getTok tokens 3)
  let h ← pyInt (← getTok tokens 5)
  if l > h then
    return (st, "Invalid INSERT command: lower bound greater than upper bound")
  return (setKey st n (t.insert ⟨l, h⟩), s!"Range [{l}, {h}] has been added to {n}")

/-- `Parser.insert` of aaf-lab.py (lines 118-135). -/
def insertCmdLab (st : TreesLab) (tokens : List String) : TreesLab × String :=
  match tokens with
  | _ :: n :: _ :: _ :: _ =>
    match getKey st n with
    | none => (st, s!"Set {n} does not exist")
    | some t =>
      match insertBodyLab st n t tokens with
      | .ok r => r
      | .error _ => (st, "Invalid INSERT command: invalid segment format")
  | _ => (st, "Invalid INSERT command: missing parameters")

/-- `Parser.print_tree` of aaf-lab.py (lines 137-146): the `print_tree` call
is not inside any `try`, so its `AttributeError` on an empty root propagates
out of the dispatcher. -/
def printCmdLab (st : TreesLab) (tokens : List String) :
    Except PyErr (TreesLab × String) :=
  match tokens with
  | _ :: n :: _ =>
    match getKey st n with
    | none => .ok (st, s!"Set {n} does not exist")
    | some t => do
      let _ ← printLinesLab t.root
      return (st, s!"Tree for {n} printed above")
  | _ => .ok (st, "Invalid PRINT_TREE command: missing set name")

/-- The `try` body of `Parser.contains` of aaf-lab.py. -/
def containsBodyLab (t : RTreeLab) (tokens : List String) : Except PyErr String := do
  let l ← pyInt (← getTok tokens 3)
  let h ← pyInt (← getTok tokens 5)
  return pyBoolStr (containsSeg t.segments ⟨l, h⟩)

/-- `Parser.contains` of aaf-lab.py (lines 148-162). -/
def containsCmdLab (st : TreesLab) (tokens : List String) : TreesLab × String :=
  match tokens with
  | _ :: n :: _ :: _ :: _ =>
    match getKey st n with
    | none => (st, s!"Set {n} does not exist")
    | some t =>
      match containsBodyLab t tokens with
      | .ok r => (st, r)
      | .error _ => (st, "Invalid CONTAINS command: invalid segment format")
  | _ => (st, "Invalid CONTAINS command: missing parameters")

/-- The `try` body of the WHERE branch of `Parser.search` of aaf-lab.py. -/
def searchBodyLab (t : RTreeLab) (qt : String) (tokens : List String) :
    Except PyErr String := do
  if qt = "CONTAINS" ∨ qt = "INTERSECTS" then
    let l ← pyInt (← getTok tokens 5)
    let h ← pyInt (← getTok tokens 7)
    let results := searchSegs t.segments
      (some (if qt = "CONTAINS" then .contains l h else .intersects l h))
    let rs := pyListStr results
    return s!"Search results: {rs}"
  else if qt = "LEFT_OF" then
    let x ← pyInt (← getTok tokens 4)
    let rs := pyListStr (searchSegs t.segments (some (.leftOf x)))
    return s!"Search results: {rs}"
  else
    return "Invalid SEARCH command: unknown search type"

/-- `Parser.search` of aaf-lab.py (lines 164-192). -/
def searchCmdLab (st : TreesLab) (tokens : List String) : TreesLab × String :=
  match tokens with
  | t0 :: n :: rest =>
    match getKey st n with
    | none => (st, s!"Set {n} does not exist")
    | some t =>
      match rest with
      | [] =>
        let rs := pyListStr (searchSegs t.segments none)
        (st, s!"Search results: {rs}")
      | [_] => (st, "Invalid SEARCH command: invalid WHERE clause")
      | w :: q :: _ =>
        if pyUpper w ≠ "WHERE" then (st, "Invalid SEARCH command: invalid WHERE clause")
        else
          let qt := pyUpper q
          match searchBodyLab t qt (t0 :: n :: rest) with
          | .ok r => (st, r)
          | .error _ => (st, s!"Invalid SEARCH command: invalid {qt} parameters")
  | _ => (st, "Invalid SEARCH command: missing set name")

/-- `Parser.parse` of aaf-lab.py (lines 88-106).  Every handler except
`print_tree` returns a plain result; `print_tree` can raise. -/
def parseLab (st : TreesLab) (command : String) : Except PyErr (TreesLab × String) :=
  match tokenize command with
  | [] => .ok (st, "Invalid command")
  | t0 :: rest =>
    let tokens := t0 :: rest
    let ct := pyUpper t0
    if ct = "CREATE" then .ok (createLab st tokens)
    else if ct = "INSERT" then .ok (insertCmdLab st tokens)
    else if ct = "PRINT_TREE" then printCmdLab st tokens
    else if ct = "CONTAINS" then .ok (containsCmdLab st tokens)
    else if ct = "SEARCH" then .ok (searchCmdLab st tokens)
    else .ok (st, "Unknown command")

/-- Proof auxiliary: where a stable sort places a newly appended element —
after every element whose lower bound does not exceed its own. -/
def insertEnd (y : Segment) : List Segment → List Segment
  | [] => [y]
  | x :: xs => if x.l ≤ y.l then x :: insertEnd y xs else y :: x :: xs

/-- The bounding-box invariant, decidably: every internal node's bbox is the
elementwise `min`/`max` of its children's bboxes, every leaf's bbox is the
segment it wraps. -/
def bboxOk : RTreeNode → Bool
  | .leaf s b => b == s
  | .node b lc rc =>
    (b.l == min lc.bbox.l rc.bbox.l && b.h == max lc.bbox.h rc.bbox.h)
      && (bboxOk lc && bboxOk rc)

/-! ## Basic query characterizations -/

theorem containsSeg_iff (segments : List Segment) (q : Segment) :
    containsSeg segments q = true ↔ ∃ s ∈ segments, s.l ≤ q.l ∧ q.h ≤ s.h := by
  simp [containsSeg, List.any_eq_true]

/-- C5: For every store state and every query segment `[L, H]`, `Contains`
returns `True` iff some stored segment `[l, h]` satisfies `l ≤ L` and `H ≤ h`
(the query interval is fully nested inside a stored interval); in particular
it returns `False` on an empty store. -/
theorem c5_contains_characterization (segments : List Segment) (q : Segment) :
    (containsSeg segments q = true ↔ ∃ s ∈ segments, s.l ≤ q.l ∧ q.h ≤ s.h)
      ∧ containsSeg [] q = false :=
  ⟨containsSeg_iff segments q, rfl⟩

/-- C6: For every store state, filtered `Search` returns, in store order,
exactly the stored segments `[l, h]` satisfying the selected predicate:
`l ≤ L ∧ H ≤ h` for CONTAINS, `¬(h < L ∨ H < l)` for INTERSECTS, and
`h ≤ X` for LEFT_OF. -/
theorem c6_search_filters (segments : List Segment) (L H x : Int) :
    searchSegs segments (some (.contains L H))
        = segments.filter (fun s => decide (s.l ≤ L ∧ H ≤ s.h))
      ∧ searchSegs segments (some (.intersects L H))
        = segments.filter (fun s => decide (¬(s.h < L ∨ H < s.l)))
      ∧ searchSegs segments (some (.leftOf x))
        = segments.filter (fun s => decide (s.h ≤ x)) := by
  refine ⟨?_, ?_, rfl⟩
  · simp [searchSegs, Bool.decide_and]
  · simp only [searchSegs]
    refine List.filter_congr fun s _ => ?_
    simp only [decide_not, Bool.decide_or]

theorem insertV2_segments (t : RTreeV2) (s : Segment) :
    (t.insert s).segments =
      if (t.segments ++ [s]).length = 1 then t.segments ++ [s]
      else pySort (t.segments ++ [s]) := rfl

theorem mem_insertV2_segments (t : RTreeV2) (s : Segment) :
    s ∈ (t.insert s).segments := by
  rw [insertV2_segments]
  split
  · exact List.mem_append_right _ (List.mem_singleton_self s)
  · exact (List.perm_insertionSort lowerLE _).mem_iff.mpr
      (List.mem_append_right _ (List.mem_singleton_self s))

/-- C8: For every store state and every segment `s` with `s.l ≤ s.h`,
immediately after `Insert(s)`, `Contains(s)` returns `True` and `s` appears in
the unfiltered `Search` result. -/
theorem c8_insert_then_contains (t : RTreeV2) (s : Segment) (_hs : s.l ≤ s.h) :
    containsSeg ((t.insert s).segments) s = true
      ∧ s ∈ searchSegs ((t.insert s).segments) none :=
  ⟨(containsSeg_iff _ _).mpr ⟨s, mem_insertV2_segments t s, le_refl _, le_refl _⟩,
   mem_insertV2_segments t s⟩

theorem c8_insert_then_contains_witness :
    containsSeg ((emptyV2.insert ⟨1, 2⟩).segments) ⟨1, 2⟩ = true
      ∧ (⟨1, 2⟩ : Segment) ∈ searchSegs ((emptyV2.insert ⟨1, 2⟩).segments) none :=
  c8_insert_then_contains emptyV2 ⟨1, 2⟩ (by decide)

/-! ## The store is stably sorted in place by every rebuild -/

theorem orderedInsert_insertEnd (x y : Segment) :
    ∀ m : List Segment, List.orderedInsert lowerLE x (insertEnd y m)
      = insertEnd y (List.orderedInsert lowerLE x m) := by
  intro m
  induction m with
  | nil =>
    by_cases h : x.l ≤ y.l <;> simp [insertEnd, List.orderedInsert, lowerLE, h]
  | cons a ms ih =>
    by_cases hay : a.l ≤ y.l
    · by_cases hxa : x.l ≤ a.l
      · have hxy : x.l ≤ y.l := le_trans hxa hay
        simp [List.orderedInsert, lowerLE, insertEnd, hay, hxa, hxy]
      · simp [List.orderedInsert, lowerLE, insertEnd, hay, hxa, ih]
    · by_cases hxy : x.l ≤ y.l
      · have hxa : x.l ≤ a.l := by omega
        simp [List.orderedInsert, lowerLE, insertEnd, hay, hxy, hxa]
      · by_cases hxa : x.l ≤ a.l
        · simp [List.orderedInsert, lowerLE, insertEnd, hay, hxy, hxa]
        · simp [List.orderedInsert, lowerLE, insertEnd, hay, hxy, hxa]

theorem pySort_append_one (y : Segment) :
    ∀ l : List Segment, pySort (l ++ [y]) = insertEnd y (pySort l) := by
  intro l
  induction l with
  | nil => rfl
  | cons x xs ih =>
    show List.orderedInsert lowerLE x (pySort (xs ++ [y]))
        = insertEnd y (List.orderedInsert lowerLE x (pySort xs))
    rw [ih, orderedInsert_insertEnd]

theorem pySort_idem (l : List Segment) : pySort (pySort l) = pySort l :=
  (List.sorted_insertionSort lowerLE l).insertionSort_eq

theorem pySort_pySort_append_one (l : List Segment) (y : Segment) :
    pySort (pySort l ++ [y]) = pySort (l ++ [y]) := by
  rw [pySort_append_one, pySort_append_one, pySort_idem]

theorem insertAllV2_segments (xs : List Segment) :
    (insertAllV2 xs).segments = pySort xs := by
  induction xs using List.reverseRecOn with
  | nil => rfl
  | append_singleton xs y ih =>
    have h1 : insertAllV2 (xs ++ [y]) = (insertAllV2 xs).insert y := by
      simp [insertAllV2, List.foldl_append]
    rw [h1, insertV2_segments, ih]
    cases xs with
    | nil => rfl
    | cons z zs =>
      have hlen : (pySort (z :: zs) ++ [y]).length ≠ 1 := by
        have := List.length_insertionSort lowerLE (z :: zs)
        simp only [pySort, List.length_append, this, List.length_cons]
        omega
      rw [if_neg hlen, pySort_pySort_append_one]

/-- C1 counterexample: inserting `[5,10]` then `[2,3]` leaves the store — and
hence the unfiltered `Search` result — as `[[2,3],[5,10]]`, not the insertion
order `[[5,10],[2,3]]`: `Build` sorts the store itself, not a copy. -/
theorem c1_counterexample_insertion_order :
    searchSegs ((insertAllV2 [⟨5, 10⟩, ⟨2, 3⟩]).segments) none = [⟨2, 3⟩, ⟨5, 10⟩]
      ∧ searchSegs ((insertAllV2 [⟨5, 10⟩, ⟨2, 3⟩]).segments) none
          ≠ [⟨5, 10⟩, ⟨2, 3⟩] := by decide

/-- C1 (amended): for every sequence of `Insert` operations on one Segment
Index, the top-level `Build` call sorts the store itself in place, so the
Segment Store contains exactly the inserted segments stably sorted by lower
bound, and an unfiltered `Search` returns that stably sorted sequence (a
permutation of the insertions), not the verbatim insertion order. -/
theorem c1_store_stably_sorted (xs : List Segment) :
    (insertAllV2 xs).segments = pySort xs
      ∧ searchSegs ((insertAllV2 xs).segments) none = pySort xs
      ∧ (insertAllV2 xs).segments.Perm xs :=
  ⟨insertAllV2_segments xs, insertAllV2_segments xs,
   (insertAllV2_segments xs) ▸ List.perm_insertionSort lowerLE xs⟩

/-! ## The two variants keep permuted stores, so `contains` agrees -/

theorem insertAllLab_aux (xs : List Segment) :
    ∀ t : RTreeLab, (xs.foldl RTreeLab.insert t).segments = t.segments ++ xs := by
  induction xs with
  | nil => intro t; simp
  | cons x xs ih =>
    intro t
    rw [List.foldl_cons, ih]
    simp [RTreeLab.insert]

theorem insertAllLab_segments (xs : List Segment) :
    (insertAllLab xs).segments = xs := by
  rw [insertAllLab, insertAllLab_aux]
  rfl

theorem containsSeg_perm {l1 l2 : List Segment} (hp : l1.Perm l2) (q : Segment) :
    containsSeg l1 q = containsSeg l2 q := by
  refine Bool.coe_iff_coe.mp ?_
  rw [containsSeg_iff, containsSeg_iff]
  constructor
  · rintro ⟨s, hs, hq⟩
    exact ⟨s, hp.mem_iff.mp hs, hq⟩
  · rintro ⟨s, hs, hq⟩
    exact ⟨s, hp.mem_iff.mpr hs, hq⟩

/-- C10: for every sequence of valid segments inserted identically into both
variants' indexes and every query segment, `contains` of aaf-lab.py and of
aaf-lab-var2.py return the same boolean: one store holds the insertions
verbatim, the other re-sorted, and the linear containment scan is
permutation-invariant. -/
theorem c10_contains_agrees (xs : List Segment) (q : Segment)
    (_hvalid : ∀ s ∈ xs, s.l ≤ s.h) :
    containsSeg ((insertAllV2 xs).segments) q
      = containsSeg ((insertAllLab xs).segments) q := by
  rw [insertAllV2_segments, insertAllLab_segments]
  exact containsSeg_perm (List.perm_insertionSort lowerLE xs) q

theorem c10_contains_agrees_witness :
    containsSeg ((insertAllV2 [⟨1, 5⟩, ⟨0, 2⟩]).segments) ⟨1, 2⟩
      = containsSeg ((insertAllLab [⟨1, 5⟩, ⟨0, 2⟩]).segments) ⟨1, 2⟩ :=
  c10_contains_agrees [⟨1, 5⟩, ⟨0, 2⟩] ⟨1, 2⟩ (by decide)

/-! ## Bounding-box invariant and build structure -/

theorem bboxOk_buildTreeFuel :
    ∀ (fuel : Nat) (segs : List Segment) (t : RTreeNode),
      buildTreeFuel fuel segs = some t → bboxOk t = true := by
  intro fuel
  induction fuel with
  | zero =>
    intro segs t h
    match segs with
    | [] => simp [buildTreeFuel] at h
    | [s] =>
      simp only [buildTreeFuel, Option.some.injEq] at h
      subst h
      simp [bboxOk, leafBBox]
    | s0 :: s1 :: rest => simp [buildTreeFuel] at h
  | succ fuel ih =>
    intro segs t h
    match segs with
    | [] => simp [buildTreeFuel] at h
    | [s] =>
      simp only [buildTreeFuel, Option.some.injEq] at h
      subst h
      simp [bboxOk, leafBBox]
    | s0 :: s1 :: rest =>
      rw [buildTreeFuel] at h
      cases hlt : buildTreeFuel fuel
          ((pySort (s0 :: s1 :: rest)).take ((s0 :: s1 :: rest).length / 2)) with
      | none => rw [hlt] at h; simp at h
      | some lt =>
        cases hrt : buildTreeFuel fuel
            ((pySort (s0 :: s1 :: rest)).drop ((s0 :: s1 :: rest).length / 2)) with
        | none => rw [hlt, hrt] at h; simp at h
        | some rt =>
          rw [hlt, hrt] at h
          simp only [Option.some.injEq] at h
          subst h
          simp [bboxOk, nodesBBox, ih _ _ hlt, ih _ _ hrt]

/-- C3: in every tree produced by `Insert` (that is, by `Build` from a
non-empty store), every internal node's bbox has `l` equal to the minimum of
its children's bbox lower bounds and `h` equal to the maximum of their upper
bounds, recursively down to the leaves, and every leaf's bbox equals the
single segment it wraps. -/
theorem c3_bbox_invariant (segs : List Segment) (t : RTreeNode)
    (h : buildTree segs = some t) : bboxOk t = true :=
  bboxOk_buildTreeFuel segs.length segs t h

theorem c3_bbox_invariant_witness :
    bboxOk (.node ⟨2, 7⟩ (.leaf ⟨2, 7⟩ ⟨2, 7⟩) (.leaf ⟨3, 4⟩ ⟨3, 4⟩)) = true :=
  c3_bbox_invariant [⟨3, 4⟩, ⟨2, 7⟩] _ (by decide)

theorem pySort_length (l : List Segment) : (pySort l).length = l.length :=
  List.length_insertionSort lowerLE l

theorem buildTreeFuel_isSome :
    ∀ (fuel : Nat) (segs : List Segment), segs ≠ [] → segs.length ≤ fuel →
      (buildTreeFuel fuel segs).isSome = true := by
  intro fuel
  induction fuel with
  | zero =>
    intro segs hne hlen
    match segs with
    | [] => exact absurd rfl hne
    | [s] => rfl
    | s0 :: s1 :: rest => simp at hlen
  | succ fuel ih =>
    intro segs hne hlen
    match segs with
    | [] => exact absurd rfl hne
    | [s] => rfl
    | s0 :: s1 :: rest =>
      rw [buildTreeFuel]
      have hlen2 : (s0 :: s1 :: rest).length = rest.length + 2 := by simp
      have htake : ((pySort (s0 :: s1 :: rest)).take
          ((s0 :: s1 :: rest).length / 2)).length = (s0 :: s1 :: rest).length / 2 := by
        rw [List.length_take, pySort_length]
        omega
      have hdrop : ((pySort (s0 :: s1 :: rest)).drop
          ((s0 :: s1 :: rest).length / 2)).length
            = (s0 :: s1 :: rest).length - (s0 :: s1 :: rest).length / 2 := by
        rw [List.length_drop, pySort_length]
      have h1 : (buildTreeFuel fuel ((pySort (s0 :: s1 :: rest)).take
          ((s0 :: s1 :: rest).length / 2))).isSome = true := by
        refine ih _ ?_ ?_
        · intro hnil
          rw [hnil] at htake
          simp at htake
          omega
        · omega
      have h2 : (buildTreeFuel fuel ((pySort (s0 :: s1 :: rest)).drop
          ((s0 :: s1 :: rest).length / 2))).isSome = true := by
        refine ih _ ?_ ?_
        · intro hnil
          rw [hnil] at hdrop
          simp at hdrop
          omega
        · omega
      obtain ⟨lt, hlt⟩ := Option.isSome_iff_exists.mp h1
      obtain ⟨rt, hrt⟩ := Option.isSome_iff_exists.mp h2
      rw [hlt, hrt]
      rfl

theorem buildTreeFuel_congr :
    ∀ (f1 f2 : Nat) (segs : List Segment), segs.length ≤ f1 → segs.length ≤ f2 →
      buildTreeFuel f1 segs = buildTreeFuel f2 segs := by
  intro f1
  induction f1 with
  | zero =>
    intro f2 segs h1 h2
    match segs with
    | [] => cases f2 <;> rfl
    | s :: tail => simp at h1
  | succ f1 ih =>
    intro f2 segs h1 h2
    match segs with
    | [] => cases f2 <;> rfl
    | [s] => cases f2 <;> rfl
    | s0 :: s1 :: rest =>
      simp only [List.length_cons] at h1 h2
      match f2 with
      | 0 => omega
      | g2 + 1 =>
        have e1 : buildTreeFuel f1 ((pySort (s0 :: s1 :: rest)).take
            ((s0 :: s1 :: rest).length / 2)) = buildTreeFuel g2 ((pySort (s0 :: s1 :: rest)).take
            ((s0 :: s1 :: rest).length / 2)) := by
          refine ih g2 _ ?_ ?_ <;>
            simp only [List.length_take, pySort_length, List.length_cons] <;> omega
        have e2 : buildTreeFuel f1 ((pySort (s0 :: s1 :: rest)).drop
            ((s0 :: s1 :: rest).length / 2)) = buildTreeFuel g2 ((pySort (s0 :: s1 :: rest)).drop
            ((s0 :: s1 :: rest).length / 2)) := by
          refine ih g2 _ ?_ ?_ <;>
            simp only [List.length_drop, pySort_length, List.length_cons] <;> omega
        simp only [buildTreeFuel]
        rw [e1, e2]

/-- C4: for every non-empty segment sequence, `Build` produces a leaf when
exactly one segment remains and otherwise splits the lower-bound-sorted
sequence at midpoint index `len/2` into the left half `[0, mid)` and right
half `[mid, len)`, recursively building an internal node with those two
children in that order; consequently `Build` is deterministic — building
twice from the same store yields structurally identical trees. -/
theorem c4_build_structure :
    (∀ s : Segment, buildTree [s] = some (.leaf s ⟨s.l, s.h⟩))
      ∧ (∀ segs : List Segment, 2 ≤ segs.length →
          ∃ lt rt,
            buildTree ((pySort segs).take (segs.length / 2)) = some lt
              ∧ buildTree ((pySort segs).drop (segs.length / 2)) = some rt
              ∧ buildTree segs = some (.node
                  ⟨min lt.bbox.l rt.bbox.l, max lt.bbox.h rt.bbox.h⟩ lt rt))
      ∧ (∀ segs t1 t2, buildTree segs = some t1 → buildTree segs = some t2 → t1 = t2) := by
  refine ⟨fun s => rfl, ?_, ?_⟩
  · intro segs hlen
    match segs with
    | [] => simp at hlen
    | [s] => simp at hlen
    | s0 :: s1 :: rest =>
      have hn : (s0 :: s1 :: rest).length = rest.length + 2 := by simp
      have htk : ((pySort (s0 :: s1 :: rest)).take
          ((s0 :: s1 :: rest).length / 2)).length = (s0 :: s1 :: rest).length / 2 := by
        simp only [List.length_take, pySort_length, List.length_cons]
        omega
      have hdp : ((pySort (s0 :: s1 :: rest)).drop
          ((s0 :: s1 :: rest).length / 2)).length
            = (s0 :: s1 :: rest).length - (s0 :: s1 :: rest).length / 2 := by
        simp only [List.length_drop, pySort_length]
      have h1 : (buildTreeFuel (rest.length + 1) ((pySort (s0 :: s1 :: rest)).take
          ((s0 :: s1 :: rest).length / 2))).isSome = true := by
        refine buildTreeFuel_isSome _ _ (List.ne_nil_of_length_pos ?_) ?_ <;>
          rw [htk, hn] <;> omega
      have h2 : (buildTreeFuel (rest.length + 1) ((pySort (s0 :: s1 :: rest)).drop
          ((s0 :: s1 :: rest).length / 2))).isSome = true := by
        refine buildTreeFuel_isSome _ _ (List.ne_nil_of_length_pos ?_) ?_ <;>
          rw [hdp, hn] <;> omega
      obtain ⟨lt, hlt⟩ := Option.isSome_iff_exists.mp h1
      obtain ⟨rt, hrt⟩ := Option.isSome_iff_exists.mp h2
      refine ⟨lt, rt, ?_, ?_, ?_⟩
      · show buildTreeFuel ((pySort (s0 :: s1 :: rest)).take
            ((s0 :: s1 :: rest).length / 2)).length ((pySort (s0 :: s1 :: rest)).take
            ((s0 :: s1 :: rest).length / 2)) = some lt
        refine (buildTreeFuel_congr _ (rest.length + 1) _ le_rfl ?_).trans hlt
        rw [htk, hn]
        omega
      · show buildTreeFuel ((pySort (s0 :: s1 :: rest)).drop
            ((s0 :: s1 :: rest).length / 2)).length ((pySort (s0 :: s1 :: rest)).drop
            ((s0 :: s1 :: rest).length / 2)) = some rt
        refine (buildTreeFuel_congr _ (rest.length + 1) _ le_rfl ?_).trans hrt
        rw [hdp, hn]
        omega
      · show buildTreeFuel (s0 :: s1 :: rest).length (s0 :: s1 :: rest) = _
        rw [hn]
        simp only [buildTreeFuel]
        rw [hlt, hrt]
        rfl
  · intro segs t1 t2 h1 h2
    rw [h1] at h2
    exact Option.some.inj h2

theorem c4_build_structure_witness :
    ∃ lt rt,
      buildTree ((pySort [⟨3, 4⟩, ⟨2, 7⟩]).take ([(⟨3, 4⟩ : Segment), ⟨2, 7⟩].length / 2))
          = some lt
        ∧ buildTree ((pySort [⟨3, 4⟩, ⟨2, 7⟩]).drop ([(⟨3, 4⟩ : Segment), ⟨2, 7⟩].length / 2))
          = some rt
        ∧ buildTree [⟨3, 4⟩, ⟨2, 7⟩] = some (.node
            ⟨min lt.bbox.l rt.bbox.l, max lt.bbox.h rt.bbox.h⟩ lt rt) :=
  c4_build_structure.2.1 [⟨3, 4⟩, ⟨2, 7⟩] (by decide)

/-- C2 is a code bug in aaf-lab.py: after `CREATE s`, dispatching
`PRINT_TREE s` reaches `print_tree` with `self.root = None`, and `node.right`
raises an `AttributeError` that no handler catches — the dispatcher does not
turn this error into a result string.  The same command against the var2
dispatcher (whose `print_tree` checks for the empty root) returns the normal
confirmation string. -/
theorem c2_print_tree_empty_set_raises :
    parseLab [] "CREATE s" = .ok ([("s", emptyLab)], "Set s has been created")
      ∧ parseLab [("s", emptyLab)] "PRINT_TREE s" = .error .attributeError
      ∧ parseV2 [("s", emptyV2)] "PRINT_TREE s"
        = ([("s", emptyV2)], "Tree for s printed above") := by decide

theorem insertBodyV2_rejects (st : TreesV2) (n : String) (t : RTreeV2)
    (tokens : List String) (a b : String) (lo hi : Int)
    (h3 : tokens[3]? = some a) (h5 : tokens[5]? = some b)
    (hl : pyInt a = .ok lo) (hh : pyInt b = .ok hi) (hlh : lo > hi) :
    insertBodyV2 st n t tokens
      = .ok (st, "Invalid INSERT command: lower bound greater than upper bound") := by
  simp [insertBodyV2, getTok, h3, h5, hl, hh, hlh, Bind.bind, Except.bind, pure, Except.pure]

theorem insertBodyLab_rejects (st : TreesLab) (n : String) (t : RTreeLab)
    (tokens : List String) (a b : String) (lo hi : Int)
    (h3 : tokens[3]? = some a) (h5 : tokens[5]? = some b)
    (hl : pyInt a = .ok lo) (hh : pyInt b = .ok hi) (hlh : lo > hi) :
    insertBodyLab st n t tokens
      = .ok (st, "Invalid INSERT command: lower bound greater than upper bound") := by
  simp [insertBodyLab, getTok, h3, h5, hl, hh, hlh, Bind.bind, Except.bind, pure, Except.pure]

/-- C7: every INSERT command whose parsed bounds satisfy `l > h` is rejected,
in both variants, with the lower-bound-greater-than-upper-bound error string,
and the parser state — hence the Segment Store and its tree — is left
unchanged. -/
theorem c7_insert_inverted_bounds_rejected
    (cmd : String) (st : TreesV2) (stL : TreesLab)
    (t0 t1 t2 t3 t4 t5 : String) (rest : List String) (lo hi : Int)
    (tr : RTreeV2) (trL : RTreeLab)
    (htok : tokenize cmd = t0 :: t1 :: t2 :: t3 :: t4 :: t5 :: rest)
    (hup : pyUpper t0 = "INSERT")
    (hl : pyInt t3 = .ok lo) (hh : pyInt t5 = .ok hi) (hlh : lo > hi)
    (hst : getKey st t1 = some tr) (hstL : getKey stL t1 = some trL) :
    parseV2 st cmd
        = (st, "Invalid INSERT command: lower bound greater than upper bound")
      ∧ parseLab stL cmd
        = .ok (stL, "Invalid INSERT command: lower bound greater than upper bound") := by
  constructor
  · have hbody := insertBodyV2_rejects st t1 tr (t0 :: t1 :: t2 :: t3 :: t4 :: t5 :: rest)
      t3 t5 lo hi (by simp) (by simp) hl hh hlh
    simp [parseV2, htok, hup, insertCmdV2, hst, hbody]
  · have hbody := insertBodyLab_rejects stL t1 trL (t0 :: t1 :: t2 :: t3 :: t4 :: t5 :: rest)
      t3 t5 lo hi (by simp) (by simp) hl hh hlh
    simp [parseLab, htok, hup, insertCmdLab, hstL, hbody]

theorem c7_insert_inverted_bounds_witness :
    parseV2 [("seg", emptyV2)] "INSERT seg [5,3]"
        = ([("seg", emptyV2)], "Invalid INSERT command: lower bound greater than upper bound")
      ∧ parseLab [("seg", emptyLab)] "INSERT seg [5,3]"
        = .ok ([("seg", emptyLab)],
            "Invalid INSERT command: lower bound greater than upper bound") :=
  c7_insert_inverted_bounds_rejected "INSERT seg [5,3]" [("seg", emptyV2)]
    [("seg", emptyLab)] "INSERT" "seg" "[" "5" "," "3" ["]"] 5 3 emptyV2 emptyLab
    (by decide) (by decide) (by decide) (by decide) (by decide) (by decide) (by decide)

/-! ## The tokenizer drops minus signs -/

theorem tokAux_chars :
    ∀ (cs acc : List Char) (t : String),
      (∀ c ∈ acc, isWordChar c = true) → t ∈ tokAux cs acc →
      ∀ c ∈ t.data, isWordChar c = true ∨ isPunctTok c = true := by
  intro cs
  induction cs with
  | nil =>
    intro acc t hacc ht c hc
    simp only [tokAux] at ht
    split at ht
    · simp at ht
    · simp only [List.mem_singleton] at ht
      subst ht
      exact Or.inl (hacc c (List.mem_reverse.mp hc))
  | cons d ds ih =>
    intro acc t hacc ht c hc
    simp only [tokAux] at ht
    split at ht
    · refine ih (d :: acc) t ?_ ht c hc
      intro e he
      rcases List.mem_cons.mp he with rfl | he
      · assumption
      · exact hacc e he
    · set rest := if isPunctTok d = true
        then String.mk [d] :: tokAux ds [] else tokAux ds [] with hrest
      have hrestchars : t ∈ rest → ∀ e ∈ t.data, isWordChar e = true ∨ isPunctTok e = true := by
        intro htr
        rw [hrest] at htr
        split at htr
        · rcases List.mem_cons.mp htr with rfl | htr
          · intro e he
            simp only [List.mem_singleton] at he
            subst he
            right
            assumption
          · exact ih [] t (by simp) htr
        · exact ih [] t (by simp) htr
      split at ht
      · exact hrestchars ht c hc
      · rcases List.mem_cons.mp ht with rfl | htr
        · exact Or.inl (hacc c (List.mem_reverse.mp hc))
        · exact hrestchars htr c hc

theorem token_value_nonneg (t : String) (v : Int)
    (hchars : ∀ c ∈ t.data, isWordChar c = true ∨ isPunctTok c = true)
    (hok : pyInt t = .ok v) : 0 ≤ v := by
  obtain ⟨data⟩ := t
  cases data with
  | nil => simp [pyInt] at hok
  | cons c cs =>
    have hc : isWordChar c = true ∨ isPunctTok c = true :=
      hchars c (List.mem_cons_self c cs)
    have hcm : c ≠ '-' := by
      rintro rfl
      rcases hc with h | h <;> simp [isWordChar, isPunctTok] at h
    have hcp : c ≠ '+' := by
      rintro rfl
      rcases hc with h | h <;> simp [isWordChar, isPunctTok] at h
    simp only [pyInt, if_neg hcm, if_neg hcp] at hok
    cases hcore : pyIntCore (c :: cs) with
    | error e => rw [hcore] at hok; simp [Except.map] at hok
    | ok n =>
      rw [hcore] at hok
      simp [Except.map, Bind.bind, Except.bind, pure, Except.pure] at hok
      omega

/-- C9: in a command with a minus-signed bound such as `INSERT s [ -5 , 10 ]`,
the tokenizer regex drops the `-` character, so the command is not rejected as
malformed and the bound is read as its absolute value (`[5, 10]` is stored);
more generally every token consists of word or punctuation characters only, so
every bound `int(...)` accepts is non-negative — negative bounds cannot be
expressed through the command interface. -/
theorem c9_minus_sign_dropped :
    tokenize "INSERT s [ -5 , 10 ]" = ["INSERT", "s", "[", "5", ",", "10", "]"]
      ∧ parseV2 [("s", emptyV2)] "INSERT s [ -5 , 10 ]"
        = ([("s", ⟨[⟨5, 10⟩], some (.leaf ⟨5, 10⟩ ⟨5, 10⟩)⟩)],
           "Range [5, 10] has been added to s")
      ∧ ∀ (cmd t : String) (v : Int),
          t ∈ tokenize cmd → pyInt t = .ok v → 0 ≤ v := by
  refine ⟨by decide, by decide, ?_⟩
  intro cmd t v ht hok
  exact token_value_nonneg t v (tokAux_chars cmd.data [] t (by simp) ht) hok

theorem c9_minus_sign_dropped_witness :
    "5" ∈ tokenize "INSERT s [ -5 , 10 ]" ∧ pyInt "5" = .ok 5 ∧ (0 : Int) ≤ 5 :=
  ⟨by decide, by decide,
   c9_minus_sign_dropped.2.2 "INSERT s [ -5 , 10 ]" "5" 5 (by decide) (by decide)⟩
